import Mathlib

/-!
Shallow embedding of the survivor-pool application core (`survivor_app.py`):
the GameRecord normalizer (`get_sports_data`), the pick-eligibility loop
(`available_teams`), the pick-outcome classification loop of the standings
view, the pool aggregation gate (`picks_revealed`), the credential functions
(`make_hashes` / `check_hashes`, SHA-256 hex digest), and `register_user`.

Conventions: Python strings become `String`; `int` scores become `Int`;
pandas rows become structures.  The pandas call
`Series.str.contains(pick, case=False)` is modelled as case-insensitive
substring containment, which is its behaviour for patterns free of regex
metacharacters (every pattern exercised here).  Feed fetch/parse failures,
which the source catches wholesale, are modelled by an `Option` input.
-/

namespace Survivor

/-- Containment of `pat` as a contiguous sublist of `s`; the empty pattern is
contained in every list, matching Python's `"" in s == True` and pandas'
`str.contains("")` matching every row. -/
def listInfix (pat : List Char) : List Char → Bool
  | [] => pat.isEmpty
  | c :: t => pat.isPrefixOf (c :: t) || listInfix pat t

/-- Python `str.lower()` (ASCII case mapping, which covers the team names and
picks handled here). -/
def py_lower (s : String) : String :=
  String.mk (s.toList.map Char.toLower)

/-- Python `str.strip()`: drop leading and trailing whitespace. -/
def py_strip (s : String) : String :=
  String.mk
    (((s.toList.dropWhile Char.isWhitespace).reverse.dropWhile
        Char.isWhitespace).reverse)

/-- `Series.str.contains(pat, case=False)` for a single cell `s`
(regex-metacharacter-free patterns behave as substring search). -/
def str_contains_ci (s pat : String) : Bool :=
  listInfix (py_lower pat).toList (py_lower s).toList

/-- Python's `sub in s` substring test. -/
def substr_in (sub s : String) : Bool :=
  listInfix sub.toList s.toList

/-- One row of the `df_scores` frame built by `get_sports_data`:
columns `Team A`, `Team B`, `Winner`, `Status`, `Score`, `Locked`. -/
structure GameRecord where
  teamA : String
  teamB : String
  winner : String
  status : String
  score : String
  locked : Bool
deriving Repr, DecidableEq

/-- One raw feed event as read by `get_sports_data`:
`status.type.description`, `status.type.state`, the two competitors'
`displayName`s and integer scores. -/
structure FeedEvent where
  description : String
  state : String
  team0 : String
  score0 : Int
  team1 : String
  score1 : Int
deriving Repr, DecidableEq

/-- The spec's completionState values for a game. -/
inductive CompletionState where
  | scheduled
  | in_progress
  | final
deriving Repr, DecidableEq

/-- The spec's mapping of the feed state token to a completionState:
"in" → in_progress, "post" → final, else scheduled. -/
def completion_state (state : String) : CompletionState :=
  if state == "in" then CompletionState.in_progress
  else if state == "post" then CompletionState.final
  else CompletionState.scheduled

/-- The per-event body of the loop in `get_sports_data`: winner is "TBD"
unless the state token is "post", in which case the strictly higher scorer
wins and equal scores give "Tie"; a game is locked when the state token is
"in" or "post". -/
def normalize_event (e : FeedEvent) : GameRecord :=
  let winner :=
    if e.state == "post" then
      if e.score0 > e.score1 then e.team0
      else if e.score1 > e.score0 then e.team1
      else "Tie"
    else "TBD"
  let is_locked := e.state == "in" || e.state == "post"
  { teamA := e.team0, teamB := e.team1, winner := winner,
    status := e.description,
    score := toString e.score0 ++ "-" ++ toString e.score1,
    locked := is_locked }

/-- The pool selector: "NFL Survivor" vs "March Madness (NCAA)". -/
inductive PoolType where
  | nfl
  | ncaa
deriving Repr, DecidableEq

/-- The hard-coded NFL fallback roster of `get_sports_data`. -/
def nfl_teams : List String :=
  ["Arizona Cardinals", "Atlanta Falcons", "Baltimore Ravens", "Buffalo Bills",
   "Carolina Panthers", "Chicago Bears", "Cincinnati Bengals", "Cleveland Browns",
   "Dallas Cowboys", "Denver Broncos", "Detroit Lions", "Green Bay Packers",
   "Houston Texans", "Indianapolis Colts", "Jacksonville Jaguars",
   "Kansas City Chiefs", "Las Vegas Raiders", "Los Angeles Chargers",
   "Los Angeles Rams", "Miami Dolphins", "Minnesota Vikings",
   "New England Patriots", "New Orleans Saints", "New York Giants",
   "New York Jets", "Philadelphia Eagles", "Pittsburgh Steelers",
   "San Francisco 49ers", "Seattle Seahawks", "Tampa Bay Buccaneers",
   "Tennessee Titans", "Washington Commanders"]

/-- The hard-coded NCAA fallback roster of `get_sports_data`. -/
def ncaa_teams : List String :=
  ["Duke", "UNC", "Kansas", "Kentucky", "UConn", "Gonzaga"]

/-- The dummy slate `get_sports_data` builds when the feed fails or yields
nothing: every roster team vs "Bye", winner "TBD", status "Scheduled",
score "0-0", unlocked. -/
def fallback_slate (pt : PoolType) : List GameRecord :=
  (match pt with
   | PoolType.nfl => nfl_teams
   | PoolType.ncaa => ncaa_teams).map fun t =>
    { teamA := t, teamB := "Bye", winner := "TBD", status := "Scheduled",
      score := "0-0", locked := false }

/-- `get_sports_data`: `none` models an unreachable feed, malformed JSON or a
response without an `events` key (all swallowed by the bare `except` or the
missing-key guard); a successful parse yields the event list.  The source
returns the normalized games only when the list is non-empty
(`if games: return ...`) and otherwise falls through to the dummy slate. -/
def get_sports_data (feed : Option (List FeedEvent)) (pt : PoolType) :
    List GameRecord :=
  match feed with
  | none => fallback_slate pt
  | some events =>
    let games := events.map normalize_event
    if games.isEmpty then fallback_slate pt else games

/-- The `available_teams` accumulation loop of the Player Portal: for each
game, Team A is offered when the game is unlocked and Team A is not a past
pick; Team B is offered when the game is unlocked, Team B is not a past pick
and Team B is not "Bye". -/
def available_teams (past_picks : List String) :
    List GameRecord → List String
  | [] => []
  | g :: rest =>
    (if !g.locked && !(past_picks.contains g.teamA) then [g.teamA] else []) ++
    (if !g.locked && !(past_picks.contains g.teamB) && g.teamB != "Bye"
     then [g.teamB] else []) ++
    available_teams past_picks rest

/-- The row selection
`df_scores[df_scores['Team A'].str.contains(pick, case=False) |
df_scores['Team B'].str.contains(pick, case=False)]` followed by `.iloc[0]`:
the first record either of whose team names contains the pick
case-insensitively. -/
def first_match (pick : String) (records : List GameRecord) :
    Option GameRecord :=
  records.find? fun g => str_contains_ci g.teamA pick ||
    str_contains_ci g.teamB pick

/-- The per-player classification body of the standings loop: strip the cell,
take the first record matching it, then "Unknown" on no match, "Pending"
unless the record's Status description is exactly "Final", and otherwise
"SAFE" / "TIE" / "ELIMINATED" by comparing the pick against the Winner
column (`pick.lower() in winner.lower()`, then `winner == "Tie"`). -/
def classify_pick (rawPick : String) (records : List GameRecord) : String :=
  let pick := py_strip rawPick
  match first_match pick records with
  | none => "Unknown"
  | some game =>
    if game.status == "Final" then
      if substr_in (py_lower pick) (py_lower game.winner) then "SAFE"
      else if game.winner == "Tie" then "TIE"
      else "ELIMINATED"
    else "Pending"

/-! ### Credential functions

`make_hashes` is `hashlib.sha256(str.encode(password)).hexdigest()`; the
SHA-256 compression below follows FIPS 180-4 on `Nat` words reduced
modulo `2^32`. -/

/-- Reduce a word modulo `2^32`. -/
def w32 (n : Nat) : Nat := n % 4294967296

/-- Right rotation of a 32-bit word by `n` places. -/
def rotr (n x : Nat) : Nat := w32 ((x >>> n) ||| (x <<< (32 - n)))

/-- Bitwise complement of a 32-bit word. -/
def not32 (x : Nat) : Nat := x ^^^ 4294967295

/-- SHA-256 round constants (FIPS 180-4 §4.2.2, written in decimal). -/
def sha_k : List Nat :=
  [1116352408, 1899447441, 3049323471, 3921009573, 961987163,
   1508970993, 2453635748, 2870763221, 3624381080, 310598401,
   607225278, 1426881987, 1925078388, 2162078206, 2614888103,
   3248222580, 3835390401, 4022224774, 264347078, 604807628,
   770255983, 1249150122, 1555081692, 1996064986, 2554220882,
   2821834349, 2952996808, 3210313671, 3336571891, 3584528711,
   113926993, 338241895, 666307205, 773529912, 1294757372,
   1396182291, 1695183700, 1986661051, 2177026350, 2456956037,
   2730485921, 2820302411, 3259730800, 3345764771, 3516065817,
   3600352804, 4094571909, 275423344, 430227734, 506948616,
   659060556, 883997877, 958139571, 1322822218, 1537002063,
   1747873779, 1955562222, 2024104815, 2227730452, 2361852424,
   2428436474, 2756734187, 3204031479, 3329325298]

/-- SHA-256 initial hash value (FIPS 180-4 §5.3.3, written in decimal). -/
def sha_h0 : List Nat :=
  [1779033703, 3144134277, 1013904242, 2773480762,
   1359893119, 2600822924, 528734635, 1541459225]

/-- Big-endian byte expansion of `n` into `numBytes` bytes. -/
def toBytesBE (numBytes n : Nat) : List Nat :=
  (List.range numBytes).map fun i => (n >>> (8 * (numBytes - 1 - i))) % 256

/-- SHA-256 message padding: append `0x80`, zero bytes up to 56 mod 64, then
the 8-byte big-endian bit length. -/
def sha_pad (msg : List Nat) : List Nat :=
  let l := msg.length
  let z := (64 - ((l + 9) % 64)) % 64
  msg ++ [128] ++ List.replicate z 0 ++ toBytesBE 8 (l * 8)

/-- Split a byte list into 64-byte chunks. -/
def chunks64 : List Nat → List (List Nat)
  | [] => []
  | b :: rest => ((b :: rest).take 64) :: chunks64 ((b :: rest).drop 64)
termination_by l => l.length
decreasing_by simp; omega

/-- Fold 4 big-endian bytes into a word. -/
def bytesToWord (bs : List Nat) : Nat :=
  bs.foldl (fun acc b => acc * 256 + b) 0

/-- The 16 initial schedule words of a 64-byte chunk. -/
def chunkWords (c : List Nat) : List Nat :=
  (List.range 16).map fun i => bytesToWord ((c.drop (4 * i)).take 4)

/-- σ₀ of the message schedule. -/
def ssig0 (x : Nat) : Nat := rotr 7 x ^^^ rotr 18 x ^^^ (x >>> 3)

/-- σ₁ of the message schedule. -/
def ssig1 (x : Nat) : Nat := rotr 17 x ^^^ rotr 19 x ^^^ (x >>> 10)

/-- Σ₀ of the compression function. -/
def bsig0 (x : Nat) : Nat := rotr 2 x ^^^ rotr 13 x ^^^ rotr 22 x

/-- Σ₁ of the compression function. -/
def bsig1 (x : Nat) : Nat := rotr 6 x ^^^ rotr 11 x ^^^ rotr 25 x

/-- The choice function. -/
def sha_ch (x y z : Nat) : Nat := (x &&& y) ^^^ (not32 x &&& z)

/-- The majority function. -/
def sha_maj (x y z : Nat) : Nat := (x &&& y) ^^^ (x &&& z) ^^^ (y &&& z)

/-- Extend the 16 schedule words by `fuel` further words. -/
def extendSchedule : Nat → Array Nat → Array Nat
  | 0, ws => ws
  | fuel + 1, ws =>
    let n := ws.size
    let w := w32 (ws.getD (n - 16) 0 + ssig0 (ws.getD (n - 15) 0) +
      ws.getD (n - 7) 0 + ssig1 (ws.getD (n - 2) 0))
    extendSchedule fuel (ws.push w)

/-- One compression round on the state `[a,b,c,d,e,f,g,h]`. -/
def roundStep (s : List Nat) (k w : Nat) : List Nat :=
  let a := s.getD 0 0
  let b := s.getD 1 0
  let c := s.getD 2 0
  let d := s.getD 3 0
  let e := s.getD 4 0
  let f := s.getD 5 0
  let g := s.getD 6 0
  let h := s.getD 7 0
  let t1 := w32 (h + bsig1 e + sha_ch e f g + k + w)
  let t2 := w32 (bsig0 a + sha_maj a b c)
  [w32 (t1 + t2), a, b, c, w32 (d + t1), e, f, g]

/-- Compress one 64-byte chunk into the running hash. -/
def compressChunk (h : List Nat) (chunk : List Nat) : List Nat :=
  let ws := extendSchedule 48 (Array.mk (chunkWords chunk))
  let s := (List.range 64).foldl
    (fun s i => roundStep s (sha_k.getD i 0) (ws.getD i 0)) h
  List.zipWith (fun x y => w32 (x + y)) h s

/-- SHA-256 digest bytes of a byte message. -/
def sha256_bytes (msg : List Nat) : List Nat :=
  let hs := (chunks64 (sha_pad msg)).foldl compressChunk sha_h0
  hs.foldr (fun w acc => toBytesBE 4 w ++ acc) []

/-- A lowercase hexadecimal digit. -/
def hexDigit (n : Nat) : Char :=
  if n < 10 then Char.ofNat (48 + n) else Char.ofNat (87 + n)

/-- Lowercase hex rendering of digest bytes, as `hexdigest()` produces. -/
def hexString (bytes : List Nat) : String :=
  String.mk (bytes.foldr (fun b acc => hexDigit (b / 16) :: hexDigit (b % 16) :: acc) [])

/-- `make_hashes`: SHA-256 hex digest of the UTF-8 encoded password. -/
def make_hashes (password : String) : String :=
  hexString (sha256_bytes (password.toUTF8.toList.map UInt8.toNat))

/-- `check_hashes`: true when the hash of the password equals the stored
digest exactly. -/
def check_hashes (password hashed_text : String) : Bool :=
  if make_hashes password == hashed_text then true else false

/-! ### Players, registration and the standings board -/

/-- One sheet row: columns `Name`, `Email`, `Security_Hash`, `Status`, then
one pick cell per period label ("Week 1", ...), sparse. -/
structure PlayerRow where
  name : String
  email : String
  security_hash : String
  life_status : String
  picks : List (String × String)
deriving Repr, DecidableEq

/-- `row.get(week, "")`: the pick cell for a period label, defaulting to the
empty string when absent. -/
def getCell (p : PlayerRow) (week : String) : String :=
  match p.picks.find? (fun kv => kv.1 == week) with
  | some kv => kv.2
  | none => ""

/-- `register_user` on an already-fetched row snapshot: reject when the
lower-cased, stripped email is already present (the source compares the
input `email.lower().strip()` against the sheet's emails lower-cased and
stripped), otherwise succeed with the exact row `append_row` writes:
`[name, email, make_hashes(password), "Alive"]`. -/
def register_user (rows : List PlayerRow) (name email password : String) :
    Except String (List String) :=
  if (rows.map fun r => py_strip (py_lower r.email)).contains
      (py_strip (py_lower email)) then
    Except.error "Email already registered!"
  else
    Except.ok [name, email, make_hashes password, "Alive"]

/-- The pick-count breakdown of the revealed board: `value_counts` over the
period column of the rows with `Status == "Alive"`, with the empty pick
filtered out afterwards.  Counts are keyed in first-appearance order; the
display sort of `value_counts` is presentation only and not modelled. -/
def pick_distribution (week : String) (players : List PlayerRow) :
    List (String × Nat) :=
  let alive := players.filter fun p => p.life_status == "Alive"
  let vals := alive.map fun p => getCell p week
  (vals.eraseDups.filter fun v => v ≠ "").map fun v =>
    (v, (vals.filter fun x => x == v).length)

/-- What the Player Portal renders below the pick form. -/
inductive AggOutput where
  /-- The "Picks Hidden" warning shown to non-admin viewers. -/
  | hidden
  /-- The revealed board: the pick breakdown and, when the score frame is
  non-empty, each player's name with the classification column. -/
  | board (distribution : List (String × Nat))
      (statuses : Option (List (String × String)))
deriving Repr, DecidableEq

/-- The non-admin standings section: gated on `picks_revealed`; when
revealed, the breakdown plus (for a non-empty score frame) the per-player
`Calculated_Status` computed by the classification loop over every row. -/
def pool_aggregate (revealed : Bool) (week : String)
    (players : List PlayerRow) (records : List GameRecord) : AggOutput :=
  if revealed then
    AggOutput.board (pick_distribution week players)
      (if records.isEmpty then none
       else some (players.map fun p =>
         (p.name, classify_pick (getCell p week) records)))
  else AggOutput.hidden

/-! ### Concrete records and events used below -/

/-- A completed game whose description reads "Final", Eagles over Giants. -/
def gameC1 : GameRecord :=
  { teamA := "Philadelphia Eagles", teamB := "New York Giants",
    winner := "Philadelphia Eagles", status := "Final", score := "24-17",
    locked := true }

/-- An unlocked Duke–Kansas game. -/
def gameDukeU : GameRecord :=
  { teamA := "Duke", teamB := "Kansas", winner := "TBD",
    status := "Scheduled", score := "0-0", locked := false }

/-- A locked, in-progress Duke–UNC game. -/
def gameDukeL : GameRecord :=
  { teamA := "Duke", teamB := "UNC", winner := "TBD",
    status := "In Progress", score := "3-0", locked := true }

/-- An unlocked record carrying the bye placeholder in the Team A column. -/
def gameByeA : GameRecord :=
  { teamA := "Bye", teamB := "Duke", winner := "TBD",
    status := "Scheduled", score := "0-0", locked := false }

/-- A finished feed event whose description reads "Final/OT" rather than
"Final", with the state token "post". -/
def eventOT : FeedEvent :=
  { description := "Final/OT", state := "post",
    team0 := "Philadelphia Eagles", score0 := 24,
    team1 := "New York Giants", score1 := 17 }

/-- An ordinary finished feed event. -/
def eventFinal : FeedEvent :=
  { description := "Final", state := "post",
    team0 := "Philadelphia Eagles", score0 := 24,
    team1 := "New York Giants", score1 := 17 }

/-- A finished feed event won by a team whose display name is "TBD". -/
def eventTBD : FeedEvent :=
  { description := "Final", state := "post", team0 := "TBD", score0 := 1,
    team1 := "Duke", score1 := 0 }

/-- A finished feed event won by a team whose display name is "Tie". -/
def eventTieName : FeedEvent :=
  { description := "Final", state := "post", team0 := "Tie", score0 := 2,
    team1 := "Duke", score1 := 1 }

/-! ### Shared structural lemmas -/

/-- Every team produced by the `available_teams` loop comes from an unlocked
game and is no past pick; entries drawn from the Team B column additionally
passed the `!= "Bye"` filter. -/
theorem mem_available_teams {past : List String} :
    ∀ {records : List GameRecord} {t : String},
      t ∈ available_teams past records →
      past.contains t = false ∧
      ∃ g ∈ records, g.locked = false ∧
        (t = g.teamA ∨ (t = g.teamB ∧ g.teamB ≠ "Bye")) := by
  intro records
  induction records with
  | nil => intro t ht; simp [available_teams] at ht
  | cons g rest ih =>
    intro t ht
    simp only [available_teams, List.mem_append] at ht
    rcases ht with (ht | ht) | ht
    · split at ht
      next hcond =>
        simp only [List.mem_singleton] at ht
        subst ht
        simp only [Bool.and_eq_true, Bool.not_eq_true'] at hcond
        exact ⟨hcond.2, g, by simp, hcond.1, Or.inl rfl⟩
      next => simp at ht
    · split at ht
      next hcond =>
        simp only [List.mem_singleton] at ht
        subst ht
        simp only [Bool.and_eq_true, Bool.not_eq_true', bne_iff_ne] at hcond
        exact ⟨hcond.1.2, g, by simp, hcond.1.1, Or.inr ⟨rfl, hcond.2⟩⟩
      next => simp at ht
    · obtain ⟨h1, g', hg', hrest⟩ := ih ht
      exact ⟨h1, g', List.mem_cons_of_mem g hg', hrest⟩

/-! ### The claims -/

/-- C1: the classification loop does NOT map the empty pick to "Unknown":
`str.contains("")` matches every row, so a player with no pick for the
period is classified from the slate's first game and is marked SAFE whenever
that game is final — contradicting the specified behaviour.  Evaluation of
the code at the failing input. -/
theorem c1_empty_pick_marked_safe :
    classify_pick "" [gameC1] = "SAFE" ∧
    classify_pick "" [gameC1] ≠ "Unknown" := by decide

/-- C3 counterexample: when the bye placeholder appears in the Team A column
of an unlocked record, the eligibility loop returns it — the `!= "Bye"`
filter is applied to Team B only. -/
theorem c3_counterexample :
    "Bye" ∈ available_teams [] [gameByeA] := by decide

/-- C3 (amended): the resolver never returns the bye placeholder provided
"Bye" never occupies the Team A column — as in every slate the source
itself builds, where "Bye" appears only as Team B. -/
theorem c3_bye_never_available (past : List String)
    (records : List GameRecord) (h : ∀ g ∈ records, g.teamA ≠ "Bye") :
    "Bye" ∉ available_teams past records := by
  intro hmem
  obtain ⟨-, g, hg, -, hcase⟩ := mem_available_teams hmem
  rcases hcase with h1 | ⟨h1, h2⟩
  · exact h g hg h1.symm
  · exact h2 h1.symm

/-- C3 witness: the concrete Duke–Kansas slate has no Team A bye, and "Bye"
is not offered. -/
theorem c3_bye_never_available_witness :
    (∀ g ∈ [gameDukeU], g.teamA ≠ "Bye") ∧
    "Bye" ∉ available_teams [] [gameDukeU] :=
  ⟨by decide, c3_bye_never_available [] [gameDukeU] (by decide)⟩

/-- C4 counterexample: a returned team may also appear in a locked record —
"Duke" is offered from the unlocked Duke–Kansas game although Duke also
occurs in the locked Duke–UNC game, so the team does not appear "only in
records whose isLocked field is false". -/
theorem c4_counterexample :
    "Duke" ∈ available_teams [] [gameDukeU, gameDukeL] ∧
    gameDukeL ∈ [gameDukeU, gameDukeL] ∧
    "Duke" = gameDukeL.teamA ∧ gameDukeL.locked = true := by decide

/-- C4 (amended): every team returned by the eligibility loop is absent (as
an exact string) from the past-pick set and is drawn from SOME record whose
isLocked field is false. -/
theorem c4_available_not_past_not_locked (past : List String)
    (records : List GameRecord) :
    ∀ t ∈ available_teams past records,
      past.contains t = false ∧
      ∃ g ∈ records, g.locked = false ∧ (t = g.teamA ∨ t = g.teamB) := by
  intro t ht
  obtain ⟨h1, g, hg, hl, hcase⟩ := mem_available_teams ht
  exact ⟨h1, g, hg, hl, hcase.imp id And.left⟩

/-- C4 witness: "Kansas" is offered from the mixed slate, is no past pick,
and comes from the unlocked record. -/
theorem c4_available_not_past_not_locked_witness :
    "Kansas" ∈ available_teams ["Duke"] [gameDukeU, gameDukeL] ∧
    (["Duke"] : List String).contains "Kansas" = false ∧
    ∃ g ∈ [gameDukeU, gameDukeL], g.locked = false ∧
      ("Kansas" = g.teamA ∨ "Kansas" = g.teamB) :=
  ⟨by decide,
   c4_available_not_past_not_locked ["Duke"] [gameDukeU, gameDukeL]
     "Kansas" (by decide)⟩

/-- C7: when the feed request fails or the response is malformed (`none`) or
yields zero events (`some []`), `get_sports_data` returns the synthetic
fallback slate, in which every record is scheduled with winner "TBD" and
unlocked. -/
theorem c7_feed_failure_fallback (pt : PoolType)
    (feed : Option (List FeedEvent)) (h : feed = none ∨ feed = some []) :
    get_sports_data feed pt = fallback_slate pt ∧
    ∀ g ∈ get_sports_data feed pt,
      g.winner = "TBD" ∧ g.status = "Scheduled" ∧ g.locked = false := by
  have hfall : get_sports_data feed pt = fallback_slate pt := by
    rcases h with h | h <;> subst h <;> rfl
  refine ⟨hfall, ?_⟩
  rw [hfall]
  intro g hg
  simp only [fallback_slate] at hg
  rcases List.mem_map.mp hg with ⟨t, -, rfl⟩
  exact ⟨rfl, rfl, rfl⟩

/-- C7 witness: the unreachable-feed case for the NCAA pool. -/
theorem c7_feed_failure_fallback_witness :
    get_sports_data none PoolType.ncaa = fallback_slate PoolType.ncaa ∧
    ∀ g ∈ get_sports_data none PoolType.ncaa,
      g.winner = "TBD" ∧ g.status = "Scheduled" ∧ g.locked = false :=
  c7_feed_failure_fallback PoolType.ncaa none (Or.inl rfl)

/-- C8: with the visibility flag false the non-admin output is the fixed
hidden marker, identical for any two player sets, period labels and
score slates. -/
theorem c8_hidden_board_independent (week1 week2 : String)
    (players1 players2 : List PlayerRow)
    (recs1 recs2 : List GameRecord) :
    pool_aggregate false week1 players1 recs1 = AggOutput.hidden ∧
    pool_aggregate false week1 players1 recs1 =
      pool_aggregate false week2 players2 recs2 := by
  constructor <;> simp [pool_aggregate]

/-- C9: hashing is deterministic, a password verifies against its own hash,
and verification succeeds exactly when the hash of the supplied password
equals the supplied digest. -/
theorem c9_hash_verify :
    (∀ p : String, make_hashes p = make_hashes p) ∧
    (∀ p : String, check_hashes p (make_hashes p) = true) ∧
    (∀ p d : String, check_hashes p d = true ↔ make_hashes p = d) := by
  refine ⟨fun p => rfl, fun p => ?_, fun p d => ?_⟩ <;> simp [check_hashes]

/-- C9 witness: a concrete password verifies against its own digest. -/
theorem c9_hash_verify_witness :
    check_hashes "password" (make_hashes "password") = true :=
  c9_hash_verify.2.1 "password"

/-- C10: a successful registration appends exactly
`[name, email, hash(password), "Alive"]` — the lifeStatus cell of every
newly registered player is "Alive". -/
theorem c10_registered_alive (rows : List PlayerRow)
    (name email password : String) (row : List String)
    (h : register_user rows name email password = Except.ok row) :
    row = [name, email, make_hashes password, "Alive"] ∧
    row.getD 3 "" = "Alive" := by
  unfold register_user at h
  split at h
  · exact absurd h (by simp)
  · rw [Except.ok.injEq] at h
    subst h
    exact ⟨rfl, rfl⟩

/-- C10 witness: registering into an empty pool appends the "Alive" row. -/
theorem c10_registered_alive_witness :
    ["Ann", "ann@example.com", make_hashes "pw", "Alive"] =
      ["Ann", "ann@example.com", make_hashes "pw", "Alive"] ∧
    (["Ann", "ann@example.com", make_hashes "pw", "Alive"]).getD 3 ""
      = "Alive" :=
  c10_registered_alive [] "Ann" "ann@example.com" "pw"
    ["Ann", "ann@example.com", make_hashes "pw", "Alive"] rfl

/-- C2 counterexample: the classifier never inspects the state token — it
compares the human-readable Status description against "Final".  A finished
event ("post") whose description is "Final/OT" is classified "Pending" even
though its completionState is final and its winner contains the pick. -/
theorem c2_counterexample :
    completion_state eventOT.state = CompletionState.final ∧
    substr_in (py_lower "Philadelphia Eagles")
      (py_lower (normalize_event eventOT).winner) = true ∧
    classify_pick "Philadelphia Eagles" [normalize_event eventOT]
      = "Pending" ∧
    classify_pick "Philadelphia Eagles" [normalize_event eventOT]
      ≠ "SAFE" := by decide

/-- C2 (amended): the classifier takes the first record whose teamA or teamB
contains the stripped pick as a case-insensitive substring; no match gives
"Unknown"; a match whose Status description differs from "Final" gives
"Pending"; on "Final" the result is "SAFE" when the winner contains the
lower-cased pick, else "TIE" when the winner is "Tie", else "ELIMINATED".
Finality is the description string "Final", not the feed's state token. -/
theorem c2_classifier_characterization (rawPick : String)
    (records : List GameRecord) :
    (first_match (py_strip rawPick) records = none →
      classify_pick rawPick records = "Unknown") ∧
    ∀ g, first_match (py_strip rawPick) records = some g →
      (g.status ≠ "Final" → classify_pick rawPick records = "Pending") ∧
      (g.status = "Final" →
        (substr_in (py_lower (py_strip rawPick)) (py_lower g.winner) = true →
          classify_pick rawPick records = "SAFE") ∧
        (substr_in (py_lower (py_strip rawPick)) (py_lower g.winner) = false →
          g.winner = "Tie" → classify_pick rawPick records = "TIE") ∧
        (substr_in (py_lower (py_strip rawPick)) (py_lower g.winner) = false →
          g.winner ≠ "Tie" →
          classify_pick rawPick records = "ELIMINATED")) := by
  constructor
  · intro h
    simp only [classify_pick, h]
  · intro g h
    constructor
    · intro hs
      simp only [classify_pick, h]
      rw [if_neg (by simp [hs])]
    · intro hs
      refine ⟨fun hw => ?_, fun hw ht => ?_, fun hw ht => ?_⟩ <;>
        simp only [classify_pick, h]
      · rw [if_pos (by simp [hs]), if_pos hw]
      · rw [if_pos (by simp [hs]), if_neg (by simp [hw]),
          if_pos (by simp [ht])]
      · rw [if_pos (by simp [hs]), if_neg (by simp [hw]),
          if_neg (by simp [ht])]

/-- C2 witness: a losing pick against a record whose description is exactly
"Final" is classified "ELIMINATED". -/
theorem c2_classifier_characterization_witness :
    classify_pick "New York Giants" [gameC1] = "ELIMINATED" :=
  (((c2_classifier_characterization "New York Giants" [gameC1]).2 gameC1
    (by decide)).2 (by decide)).2.2 (by decide) (by decide)

/-- C5 counterexample: a finished event won by a side whose display name is
literally "TBD" yields a record with winner "TBD" and completionState
final, violating the stated equivalence. -/
theorem c5_counterexample :
    completion_state eventTBD.state = CompletionState.final ∧
    (normalize_event eventTBD).winner = "TBD" := by decide

/-- C5 (amended): for every feed event neither of whose competitors is named
"TBD", the normalized winner differs from "TBD" exactly when the
completionState is final; every fallback record has winner "TBD" (and is
scheduled, hence not final). -/
theorem c5_winner_tbd_iff_final :
    (∀ e : FeedEvent, e.team0 ≠ "TBD" → e.team1 ≠ "TBD" →
      ((normalize_event e).winner ≠ "TBD" ↔
        completion_state e.state = CompletionState.final)) ∧
    ∀ pt : PoolType, ∀ g ∈ fallback_slate pt, g.winner = "TBD" := by
  constructor
  · intro e h0 h1
    by_cases hpost : e.state = "post"
    · have hfinal : completion_state e.state = CompletionState.final := by
        rw [completion_state, hpost]; decide
      have hb : (e.state == "post") = true := by simp [hpost]
      have hwin : (normalize_event e).winner ≠ "TBD" := by
        simp only [normalize_event, hb, if_true]
        split_ifs <;> first | exact h0 | exact h1 | decide
      simp [hfinal, hwin]
    · have hb : (e.state == "post") = false := by
        simp [hpost]
      have hwin : (normalize_event e).winner = "TBD" := by
        simp [normalize_event, hb]
      have hcs : completion_state e.state ≠ CompletionState.final := by
        simp only [completion_state, hb, Bool.false_eq_true, if_false]
        split <;> decide
      simp [hwin, hcs]
  · intro pt g hg
    simp only [fallback_slate] at hg
    rcases List.mem_map.mp hg with ⟨t, -, rfl⟩
    rfl

/-- C5 witness: a clean finished event satisfies the equivalence. -/
theorem c5_winner_tbd_iff_final_witness :
    (normalize_event eventFinal).winner ≠ "TBD" ↔
      completion_state eventFinal.state = CompletionState.final :=
  c5_winner_tbd_iff_final.1 eventFinal (by decide) (by decide)

/-- C6 counterexample: a finished event with unequal scores won by a team
whose display name is literally "Tie" produces winner "Tie", so "winner =
'Tie' exactly when the scores are equal" fails as stated. -/
theorem c6_counterexample :
    completion_state eventTieName.state = CompletionState.final ∧
    (normalize_event eventTieName).winner = "Tie" ∧
    eventTieName.score0 ≠ eventTieName.score1 := by decide

/-- C6 (amended): for a finished feed event, equal scores give winner "Tie"
and unequal scores give the display name of the side with the strictly
greater score (which coincides with the claim whenever no side is literally
named "Tie"). -/
theorem c6_final_winner_by_score (e : FeedEvent)
    (hf : completion_state e.state = CompletionState.final) :
    (e.score0 = e.score1 → (normalize_event e).winner = "Tie") ∧
    (e.score0 > e.score1 → (normalize_event e).winner = e.team0) ∧
    (e.score1 > e.score0 → (normalize_event e).winner = e.team1) := by
  have hpost : (e.state == "post") = true := by
    unfold completion_state at hf
    split at hf
    next => exact absurd hf (by decide)
    next =>
      split at hf
      next h2 => exact h2
      next => exact absurd hf (by decide)
  refine ⟨fun hs => ?_, fun hs => ?_, fun hs => ?_⟩ <;>
    simp only [normalize_event, hpost, if_true]
  · rw [if_neg (by omega), if_neg (by omega)]
  · rw [if_pos hs]
  · rw [if_neg (by omega), if_pos hs]

/-- C6 witness: the Eagles' 24–17 win is attributed to the Eagles. -/
theorem c6_final_winner_by_score_witness :
    (normalize_event eventFinal).winner = eventFinal.team0 :=
  (c6_final_winner_by_score eventFinal (by decide)).2.1 (by decide)

end Survivor
